import Mathlib

/-!
Verification of the hotel-reservation system (customer.py, hotel.py,
reservation.py).  Each Python store (a JSON file holding a dict keyed by the
entity id) is embedded as an association list `Store α = List (String × α)`
with unique keys; every static method that does a load → mutate → save cycle
becomes a pure function from the store(s) to the result together with the new
store(s).  Python `int` is embedded as `Int`, lists as `List String`, and
fallible constructors (`from_dict` raising `KeyError`) as `Option`-returning
functions.
-/

set_option maxHeartbeats 1000000

/-- A persisted collection: the parsed contents of one JSON file, keyed by
entity id, in insertion order (Python dicts preserve insertion order). -/
abbrev Store (α : Type) : Type := List (String × α)

namespace Store

/-- Python `d[k]` / `k in d`: find the value stored under key `k`. -/
def getS {α : Type} : Store α → String → Option α
  | [], _ => none
  | (k, v) :: rest, key => if k = key then some v else getS rest key

/-- Python `d[k] = v`: replace the entry under `k`, or append a new one. -/
def setS {α : Type} : Store α → String → α → Store α
  | [], key, v => [(key, v)]
  | (k, w) :: rest, key, v =>
      if k = key then (key, v) :: rest else (k, w) :: setS rest key v

/-- Python `del d[k]`: remove the entry under `k` (a dict holds at most one). -/
def delS {α : Type} : Store α → String → Store α
  | [], _ => []
  | (k, w) :: rest, key => if k = key then rest else (k, w) :: delS rest key

/-- Python dicts cannot hold a key twice; stores read from a dict satisfy
this. -/
def keysNodup {α : Type} (s : Store α) : Prop := (s.map Prod.fst).Nodup

instance {α : Type} (s : Store α) : Decidable (keysNodup s) := by
  unfold keysNodup; infer_instance

theorem getS_setS {α : Type} (s : Store α) (k k' : String) (v : α) :
    getS (setS s k v) k' = if k = k' then some v else getS s k' := by
  induction s with
  | nil => simp [setS, getS]
  | cons p rest ih =>
      obtain ⟨a, w⟩ := p
      simp only [setS]
      split
      · next hak =>
          subst hak
          simp only [getS]
          by_cases h : a = k' <;> simp [h]
      · next hak =>
          simp only [getS]
          by_cases h : a = k'
          · have hkk : ¬ k = k' := fun he => hak (h ▸ he.symm)
            simp [h, hkk]
          · simp [h, ih]

theorem getS_delS_ne {α : Type} (s : Store α) (k k' : String) (h : k ≠ k') :
    getS (delS s k) k' = getS s k' := by
  induction s with
  | nil => rfl
  | cons p rest ih =>
      obtain ⟨a, w⟩ := p
      simp only [delS]
      split
      · next hak =>
          subst hak
          simp [getS, h]
      · next hak =>
          simp only [getS]
          by_cases h' : a = k' <;> simp [h', ih]

theorem getS_eq_none_of_not_mem {α : Type} (s : Store α) (k : String)
    (h : k ∉ s.map Prod.fst) : getS s k = none := by
  induction s with
  | nil => rfl
  | cons p rest ih =>
      obtain ⟨a, w⟩ := p
      simp only [List.map_cons, List.mem_cons, not_or] at h
      have hak : ¬ a = k := fun hk => h.1 hk.symm
      simp only [getS, if_neg hak]
      exact ih h.2

theorem getS_delS_self {α : Type} (s : Store α) (k : String)
    (hn : keysNodup s) : getS (delS s k) k = none := by
  induction s with
  | nil => rfl
  | cons p rest ih =>
      obtain ⟨a, w⟩ := p
      simp only [keysNodup, List.map_cons, List.nodup_cons] at hn
      simp only [delS]
      split
      · next hak =>
          subst hak
          exact getS_eq_none_of_not_mem rest a hn.1
      · next hak =>
          simp only [getS, if_neg hak]
          exact ih hn.2

theorem getS_eq_some_of_mem {α : Type} (s : Store α) (k : String) (v : α)
    (hn : keysNodup s) (h : (k, v) ∈ s) : getS s k = some v := by
  induction s with
  | nil => simp at h
  | cons p rest ih =>
      obtain ⟨a, w⟩ := p
      simp only [keysNodup, List.map_cons, List.nodup_cons] at hn
      rcases List.mem_cons.mp h with h1 | h2
      · simp only [Prod.mk.injEq] at h1
        obtain ⟨ha, hv⟩ := h1
        subst ha; subst hv
        simp [getS]
      · have hak : ¬ a = k := by
          intro he
          exact hn.1 (List.mem_map.mpr ⟨(k, v), h2, he.symm⟩)
        simp only [getS, if_neg hak]
        exact ih hn.2 h2

theorem mem_of_getS_eq_some {α : Type} (s : Store α) (k : String) (v : α)
    (h : getS s k = some v) : (k, v) ∈ s := by
  induction s with
  | nil => simp [getS] at h
  | cons p rest ih =>
      obtain ⟨a, w⟩ := p
      simp only [getS] at h
      split at h
      · next heq =>
          obtain rfl := heq
          obtain rfl := Option.some.inj h
          exact List.mem_cons_self _ _
      · next hne => exact List.mem_cons_of_mem _ (ih h)

theorem mem_setS_cases {α : Type} (s : Store α) (k : String) (v : α)
    (q : String × α) (h : q ∈ setS s k v) : q = (k, v) ∨ q ∈ s := by
  induction s with
  | nil =>
      simp only [setS] at h
      exact Or.inl (List.mem_singleton.mp h)
  | cons p rest ih =>
      obtain ⟨a, w⟩ := p
      simp only [setS] at h
      split at h
      · next hak =>
          subst hak
          rcases List.mem_cons.mp h with h1 | h2
          · exact Or.inl h1
          · exact Or.inr (List.mem_cons_of_mem _ h2)
      · next hak =>
          rcases List.mem_cons.mp h with h1 | h2
          · exact Or.inr (by rw [h1]; exact List.mem_cons_self _ _)
          · rcases ih h2 with h3 | h4
            · exact Or.inl h3
            · exact Or.inr (List.mem_cons_of_mem _ h4)

theorem mem_of_mem_delS {α : Type} (s : Store α) (k : String)
    (q : String × α) (h : q ∈ delS s k) : q ∈ s := by
  induction s with
  | nil => simp only [delS] at h; exact h
  | cons p rest ih =>
      obtain ⟨a, w⟩ := p
      simp only [delS] at h
      split at h
      · next hak => exact List.mem_cons_of_mem _ h
      · next hak =>
          rcases List.mem_cons.mp h with h1 | h2
          · exact (by rw [h1]; exact List.mem_cons_self _ _)
          · exact List.mem_cons_of_mem _ (ih h2)

theorem keysNodup_setS {α : Type} (s : Store α) (k : String) (v : α)
    (hn : keysNodup s) : keysNodup (setS s k v) := by
  induction s with
  | nil => simp [setS, keysNodup]
  | cons p rest ih =>
      obtain ⟨a, w⟩ := p
      simp only [keysNodup, List.map_cons, List.nodup_cons] at hn
      simp only [setS]
      split
      · next hak =>
          subst hak
          simpa [keysNodup] using hn
      · next hak =>
          simp only [keysNodup, List.map_cons, List.nodup_cons]
          constructor
          · intro hmem
            rcases List.mem_map.mp hmem with ⟨q, hq, hq1⟩
            rcases mem_setS_cases rest k v q hq with h1 | h2
            · have hka : k = a := by rw [h1] at hq1; exact hq1
              exact hak hka.symm
            · exact hn.1 (List.mem_map.mpr ⟨q, h2, hq1⟩)
          · exact ih hn.2

theorem keysNodup_delS {α : Type} (s : Store α) (k : String)
    (hn : keysNodup s) : keysNodup (delS s k) := by
  induction s with
  | nil => simp [delS, keysNodup]
  | cons p rest ih =>
      obtain ⟨a, w⟩ := p
      simp only [keysNodup, List.map_cons, List.nodup_cons] at hn
      simp only [delS]
      split
      · next hak => exact hn.2
      · next hak =>
          simp only [keysNodup, List.map_cons, List.nodup_cons]
          refine ⟨fun hmem => ?_, ih hn.2⟩
          rcases List.mem_map.mp hmem with ⟨q, hq, hq1⟩
          exact hn.1 (List.mem_map.mpr ⟨q, mem_of_mem_delS rest k q hq, hq1⟩)

end Store

/-! ## Data model (customer.py / hotel.py / reservation.py) -/

/-- Embeds `Customer.__init__`: a customer record. -/
structure Customer where
  customer_id : String
  name : String
  email : String
  phone : String
  deriving DecidableEq

/-- A parsed JSON object for a customer: each expected key may be absent
(`data["k"]` raising `KeyError` is embedded as the field being `none`). -/
structure CustomerDict where
  customer_id : Option String
  name : Option String
  email : Option String
  phone : Option String
  deriving DecidableEq

/-- Embeds `Customer.to_dict`. -/
def Customer.to_dict (c : Customer) : CustomerDict :=
  { customer_id := some c.customer_id, name := some c.name,
    email := some c.email, phone := some c.phone }

/-- Embeds `Customer.from_dict`: reads the four required keys; a missing key raises
`KeyError`, embedded as `none`. -/
def Customer.from_dict (d : CustomerDict) : Option Customer :=
  match d.customer_id, d.name, d.email, d.phone with
  | some a, some n, some e, some p =>
      some { customer_id := a, name := n, email := e, phone := p }
  | _, _, _, _ => none

/-- Embeds `Customer._load_customers`, from the point where the file has parsed into
a keyed mapping of raw records: each record that fails `from_dict` is skipped
(with a printed diagnostic) and the rest are kept. -/
def Customer._load_customers (data : Store CustomerDict) : Store Customer :=
  data.filterMap fun kv => (Customer.from_dict kv.2).map fun c => (kv.1, c)

/-- Embeds the `Hotel.__init__` state: a hotel record. -/
structure Hotel where
  hotel_id : String
  name : String
  location : String
  total_rooms : Int
  available_rooms : Int
  reservations : List String
  deriving DecidableEq

/-- Embeds `Hotel.__init__`: `available_rooms = total_rooms`, empty occupant list. -/
def Hotel.init (hotel_id name location : String) (total_rooms : Int) : Hotel :=
  { hotel_id := hotel_id, name := name, location := location,
    total_rooms := total_rooms, available_rooms := total_rooms,
    reservations := [] }

/-- A parsed JSON object for a hotel.  `hotel_id`, `name`, `location`,
`total_rooms` are required (`KeyError` if absent); `available_rooms` and
`reservations` are read with `.get` defaults. -/
structure HotelDict where
  hotel_id : Option String
  name : Option String
  location : Option String
  total_rooms : Option Int
  available_rooms : Option Int
  reservations : Option (List String)
  deriving DecidableEq

/-- Embeds `Hotel.to_dict`. -/
def Hotel.to_dict (h : Hotel) : HotelDict :=
  { hotel_id := some h.hotel_id, name := some h.name,
    location := some h.location, total_rooms := some h.total_rooms,
    available_rooms := some h.available_rooms,
    reservations := some h.reservations }

/-- Embeds `Hotel.from_dict`: required keys indexed directly, `available_rooms`
defaults to `total_rooms`, `reservations` defaults to `[]`. -/
def Hotel.from_dict (d : HotelDict) : Option Hotel :=
  match d.hotel_id, d.name, d.location, d.total_rooms with
  | some i, some n, some l, some t =>
      some { hotel_id := i, name := n, location := l, total_rooms := t,
             available_rooms := d.available_rooms.getD t,
             reservations := d.reservations.getD [] }
  | _, _, _, _ => none

/-- Embeds `Hotel._load_hotels`, after the file has parsed: per-record `from_dict`
failures are skipped, the rest kept. -/
def Hotel._load_hotels (data : Store HotelDict) : Store Hotel :=
  data.filterMap fun kv => (Hotel.from_dict kv.2).map fun h => (kv.1, h)

/-- Embeds `Hotel.create_hotel`: load → existence check → insert → save, returning
the created hotel (or `None` on duplicate id) and the new store contents. -/
def Hotel.create_hotel (hotels : Store Hotel) (hotel_id name location : String)
    (total_rooms : Int) : Option Hotel × Store Hotel :=
  if (Store.getS hotels hotel_id).isSome then (none, hotels)
  else
    let hotel := Hotel.init hotel_id name location total_rooms
    (some hotel, Store.setS hotels hotel_id hotel)

/-- Embeds `if name: hotel.name = name` — Python truthiness: skipped when `None`
or `""`. -/
def Hotel.apply_name (hotel : Hotel) (name : Option String) : Hotel :=
  match name with
  | some n => if n = "" then hotel else { hotel with name := n }
  | none => hotel

/-- Embeds `if location: hotel.location = location` — Python truthiness. -/
def Hotel.apply_location (hotel : Hotel) (location : Option String) : Hotel :=
  match location with
  | some l => if l = "" then hotel else { hotel with location := l }
  | none => hotel

/-- Embeds `Hotel.modify_hotel`: `name`/`location` update on Python truthiness
(skipped when `None` or `""`), `total_rooms` update whenever not `None`,
adjusting `available_rooms` by the delta clamped below at 0. -/
def Hotel.modify_hotel (hotels : Store Hotel) (hotel_id : String)
    (name location : Option String) (total_rooms : Option Int) :
    Bool × Store Hotel :=
  match Store.getS hotels hotel_id with
  | none => (false, hotels)
  | some hotel =>
      let h2 := Hotel.apply_location (Hotel.apply_name hotel name) location
      let h3 := match total_rooms with
        | some t =>
            { h2 with total_rooms := t,
                      available_rooms :=
                        max 0 (h2.available_rooms + (t - h2.total_rooms)) }
        | none => h2
      (true, Store.setS hotels hotel_id h3)

/-- Embeds `Hotel.reserve_room`: `False` when the hotel is absent or
`available_rooms <= 0` (store untouched); otherwise decrement availability,
append the reservation id to the occupant list, save, return `True`. -/
def Hotel.reserve_room (hotels : Store Hotel)
    (hotel_id reservation_id : String) : Bool × Store Hotel :=
  match Store.getS hotels hotel_id with
  | none => (false, hotels)
  | some hotel =>
      if hotel.available_rooms ≤ 0 then (false, hotels)
      else
        (true, Store.setS hotels hotel_id
          { hotel with available_rooms := hotel.available_rooms - 1,
                       reservations := hotel.reservations ++ [reservation_id] })

/-- Embeds `Hotel.cancel_room`: `False` when the hotel is absent or the id is not in
the occupant list; otherwise `list.remove` (first occurrence) and increment
availability clamped above at `total_rooms`. -/
def Hotel.cancel_room (hotels : Store Hotel)
    (hotel_id reservation_id : String) : Bool × Store Hotel :=
  match Store.getS hotels hotel_id with
  | none => (false, hotels)
  | some hotel =>
      if reservation_id ∈ hotel.reservations then
        (true, Store.setS hotels hotel_id
          { hotel with
              reservations := hotel.reservations.erase reservation_id,
              available_rooms :=
                min hotel.total_rooms (hotel.available_rooms + 1) })
      else (false, hotels)

/-- Embeds `Reservation.__init__`: a reservation record. -/
structure Reservation where
  reservation_id : String
  customer_id : String
  hotel_id : String
  check_in : String
  check_out : String
  deriving DecidableEq

/-- A parsed JSON object for a reservation: all five keys required. -/
structure ReservationDict where
  reservation_id : Option String
  customer_id : Option String
  hotel_id : Option String
  check_in : Option String
  check_out : Option String
  deriving DecidableEq

/-- Embeds `Reservation.to_dict`. -/
def Reservation.to_dict (r : Reservation) : ReservationDict :=
  { reservation_id := some r.reservation_id, customer_id := some r.customer_id,
    hotel_id := some r.hotel_id, check_in := some r.check_in,
    check_out := some r.check_out }

/-- Embeds `Reservation.from_dict`. -/
def Reservation.from_dict (d : ReservationDict) : Option Reservation :=
  match d.reservation_id, d.customer_id, d.hotel_id, d.check_in, d.check_out with
  | some i, some c, some h, some ci, some co =>
      some { reservation_id := i, customer_id := c, hotel_id := h,
             check_in := ci, check_out := co }
  | _, _, _, _, _ => none

/-- Embeds `Reservation._load_reservations`, after the file has parsed. -/
def Reservation._load_reservations (data : Store ReservationDict) :
    Store Reservation :=
  data.filterMap fun kv => (Reservation.from_dict kv.2).map fun r => (kv.1, r)

/-- The three persisted stores that `create_reservation`/`cancel_reservation`
read and write. -/
structure SysState where
  customers : Store Customer
  hotels : Store Hotel
  reservations : Store Reservation
  deriving DecidableEq

/-- Embeds `Reservation.create_reservation`: duplicate-id check, customer-existence
check, then `Hotel.reserve_room`; only when the latter succeeds is the new
Reservation record inserted and saved. -/
def Reservation.create_reservation
    (reservation_id customer_id hotel_id check_in check_out : String)
    (s : SysState) : Option Reservation × SysState :=
  if (Store.getS s.reservations reservation_id).isSome then (none, s)
  else if (Store.getS s.customers customer_id).isNone then (none, s)
  else
    let res := Hotel.reserve_room s.hotels hotel_id reservation_id
    if res.1 then
      let r : Reservation := { reservation_id := reservation_id,
                               customer_id := customer_id, hotel_id := hotel_id,
                               check_in := check_in, check_out := check_out }
      (some r, { s with hotels := res.2,
                        reservations := Store.setS s.reservations reservation_id r })
    else (none, { s with hotels := res.2 })

/-- Embeds `Reservation.cancel_reservation`: `False` when the id is absent;
otherwise call `Hotel.cancel_room` (its result is discarded), delete the
record, save, return `True`. -/
def Reservation.cancel_reservation (reservation_id : String) (s : SysState) :
    Bool × SysState :=
  match Store.getS s.reservations reservation_id with
  | none => (false, s)
  | some r =>
      let res := Hotel.cancel_room s.hotels r.hotel_id reservation_id
      (true, { s with hotels := res.2,
                      reservations := Store.delS s.reservations reservation_id })

/-! ## Helper lemmas about the store operations -/

theorem Store.mem_setS_keysNodup {α : Type} (s : Store α) (k : String) (v : α)
    (q : String × α) (hn : Store.keysNodup s) (h : q ∈ Store.setS s k v) :
    q = (k, v) ∨ (q ∈ s ∧ q.1 ≠ k) := by
  induction s with
  | nil =>
      simp only [Store.setS] at h
      exact Or.inl (List.mem_singleton.mp h)
  | cons p rest ih =>
      obtain ⟨a, w⟩ := p
      simp only [Store.keysNodup, List.map_cons, List.nodup_cons] at hn
      simp only [Store.setS] at h
      split at h
      · next hak =>
          subst hak
          rcases List.mem_cons.mp h with h1 | h2
          · exact Or.inl h1
          · refine Or.inr ⟨List.mem_cons_of_mem _ h2, fun hq => ?_⟩
            exact hn.1 (List.mem_map.mpr ⟨q, h2, hq⟩)
      · next hak =>
          rcases List.mem_cons.mp h with h1 | h2
          · refine Or.inr ⟨by rw [h1]; exact List.mem_cons_self _ _, ?_⟩
            rw [h1]; exact hak
          · rcases ih hn.2 h2 with h3 | h4
            · exact Or.inl h3
            · exact Or.inr ⟨List.mem_cons_of_mem _ h4.1, h4.2⟩

theorem Store.mem_delS_keysNodup {α : Type} (s : Store α) (k : String)
    (q : String × α) (hn : Store.keysNodup s) (h : q ∈ Store.delS s k) :
    q ∈ s ∧ q.1 ≠ k := by
  induction s with
  | nil => simp only [Store.delS] at h; exact absurd h (List.not_mem_nil q)
  | cons p rest ih =>
      obtain ⟨a, w⟩ := p
      simp only [Store.keysNodup, List.map_cons, List.nodup_cons] at hn
      simp only [Store.delS] at h
      split at h
      · next hak =>
          subst hak
          refine ⟨List.mem_cons_of_mem _ h, fun hq => ?_⟩
          exact hn.1 (List.mem_map.mpr ⟨q, h, hq⟩)
      · next hak =>
          rcases List.mem_cons.mp h with h1 | h2
          · refine ⟨by rw [h1]; exact List.mem_cons_self _ _, ?_⟩
            rw [h1]; exact hak
          · exact ⟨List.mem_cons_of_mem _ (ih hn.2 h2).1, (ih hn.2 h2).2⟩

/-- Unfolding `reserve_room` when the hotel is absent. -/
theorem Hotel.reserve_room_eq_none (hotels : Store Hotel)
    (hotel_id reservation_id : String)
    (hg : Store.getS hotels hotel_id = none) :
    Hotel.reserve_room hotels hotel_id reservation_id = (false, hotels) := by
  unfold Hotel.reserve_room
  rw [hg]

/-- Unfolding `reserve_room` when the hotel is present. -/
theorem Hotel.reserve_room_eq_some (hotels : Store Hotel)
    (hotel_id reservation_id : String) (hotel : Hotel)
    (hg : Store.getS hotels hotel_id = some hotel) :
    Hotel.reserve_room hotels hotel_id reservation_id =
      if hotel.available_rooms ≤ 0 then (false, hotels)
      else
        (true, Store.setS hotels hotel_id
          { hotel with available_rooms := hotel.available_rooms - 1,
                       reservations := hotel.reservations ++ [reservation_id] }) := by
  unfold Hotel.reserve_room
  rw [hg]

/-- Unfolding `cancel_room` when the hotel is absent. -/
theorem Hotel.cancel_room_eq_none (hotels : Store Hotel)
    (hotel_id reservation_id : String)
    (hg : Store.getS hotels hotel_id = none) :
    Hotel.cancel_room hotels hotel_id reservation_id = (false, hotels) := by
  unfold Hotel.cancel_room
  rw [hg]

/-- Unfolding `cancel_room` when the hotel is present. -/
theorem Hotel.cancel_room_eq_some (hotels : Store Hotel)
    (hotel_id reservation_id : String) (hotel : Hotel)
    (hg : Store.getS hotels hotel_id = some hotel) :
    Hotel.cancel_room hotels hotel_id reservation_id =
      if reservation_id ∈ hotel.reservations then
        (true, Store.setS hotels hotel_id
          { hotel with
              reservations := hotel.reservations.erase reservation_id,
              available_rooms :=
                min hotel.total_rooms (hotel.available_rooms + 1) })
      else (false, hotels) := by
  unfold Hotel.cancel_room
  rw [hg]

/-- Unfolding `modify_hotel` when the hotel is absent. -/
theorem Hotel.modify_hotel_eq_none (hotels : Store Hotel) (hotel_id : String)
    (name location : Option String) (total_rooms : Option Int)
    (hg : Store.getS hotels hotel_id = none) :
    Hotel.modify_hotel hotels hotel_id name location total_rooms =
      (false, hotels) := by
  unfold Hotel.modify_hotel
  rw [hg]

/-- Unfolding `modify_hotel` on a present hotel, for a pure total-rooms
update. -/
theorem Hotel.modify_hotel_eq_total (hotels : Store Hotel) (hotel_id : String)
    (t : Int) (hotel : Hotel)
    (hg : Store.getS hotels hotel_id = some hotel) :
    Hotel.modify_hotel hotels hotel_id none none (some t) =
      (true, Store.setS hotels hotel_id
        { hotel with total_rooms := t,
                     available_rooms :=
                       max 0 (hotel.available_rooms + (t - hotel.total_rooms)) }) := by
  unfold Hotel.modify_hotel
  rw [hg]
  rfl

/-- Unfolding `cancel_reservation` when the record is absent. -/
theorem Reservation.cancel_reservation_eq_none (s : SysState)
    (reservation_id : String)
    (hg : Store.getS s.reservations reservation_id = none) :
    Reservation.cancel_reservation reservation_id s = (false, s) := by
  unfold Reservation.cancel_reservation
  rw [hg]

/-- Unfolding `cancel_reservation` when the record is present. -/
theorem Reservation.cancel_reservation_eq_some (s : SysState)
    (reservation_id : String) (r : Reservation)
    (hg : Store.getS s.reservations reservation_id = some r) :
    Reservation.cancel_reservation reservation_id s =
      (true, { s with
                 hotels := (Hotel.cancel_room s.hotels r.hotel_id reservation_id).2,
                 reservations := Store.delS s.reservations reservation_id }) := by
  unfold Reservation.cancel_reservation
  rw [hg]

/-- A failing `reserve_room` does not save: the store comes back unchanged. -/
theorem Hotel.reserve_room_fail (hotels : Store Hotel)
    (hotel_id reservation_id : String)
    (h : (Hotel.reserve_room hotels hotel_id reservation_id).1 = false) :
    (Hotel.reserve_room hotels hotel_id reservation_id).2 = hotels := by
  cases hg : Store.getS hotels hotel_id with
  | none => rw [Hotel.reserve_room_eq_none hotels hotel_id reservation_id hg]
  | some hotel =>
      rw [Hotel.reserve_room_eq_some hotels hotel_id reservation_id hotel hg] at h ⊢
      by_cases hav : hotel.available_rooms ≤ 0
      · rw [if_pos hav]
      · rw [if_neg hav] at h
        exact absurd h (by simp)

/-- A failing `cancel_room` does not save: the store comes back unchanged. -/
theorem Hotel.cancel_room_fail (hotels : Store Hotel)
    (hotel_id reservation_id : String)
    (h : (Hotel.cancel_room hotels hotel_id reservation_id).1 = false) :
    (Hotel.cancel_room hotels hotel_id reservation_id).2 = hotels := by
  cases hg : Store.getS hotels hotel_id with
  | none => rw [Hotel.cancel_room_eq_none hotels hotel_id reservation_id hg]
  | some hotel =>
      rw [Hotel.cancel_room_eq_some hotels hotel_id reservation_id hotel hg] at h ⊢
      by_cases hm : reservation_id ∈ hotel.reservations
      · rw [if_pos hm] at h
        exact absurd h (by simp)
      · rw [if_neg hm]

/-- Unfolding `create_reservation` on a duplicate reservation id. -/
theorem Reservation.create_reservation_eq_dup
    (s : SysState) (rid cid hid ci co : String)
    (h : (Store.getS s.reservations rid).isSome = true) :
    Reservation.create_reservation rid cid hid ci co s = (none, s) := by
  unfold Reservation.create_reservation
  rw [if_pos h]

/-- Unfolding `create_reservation` when the customer is absent. -/
theorem Reservation.create_reservation_eq_nocust
    (s : SysState) (rid cid hid ci co : String)
    (h1 : Store.getS s.reservations rid = none)
    (h2 : Store.getS s.customers cid = none) :
    Reservation.create_reservation rid cid hid ci co s = (none, s) := by
  unfold Reservation.create_reservation
  rw [if_neg (by simp [h1]), if_pos (by simp [h2])]

/-- Unfolding `create_reservation` past both guards: the outcome is decided
by `Hotel.reserve_room`. -/
theorem Reservation.create_reservation_eq_go
    (s : SysState) (rid cid hid ci co : String) (c : Customer)
    (h1 : Store.getS s.reservations rid = none)
    (h2 : Store.getS s.customers cid = some c) :
    Reservation.create_reservation rid cid hid ci co s =
      if (Hotel.reserve_room s.hotels hid rid).1 then
        (some { reservation_id := rid, customer_id := cid, hotel_id := hid,
                check_in := ci, check_out := co },
         { s with hotels := (Hotel.reserve_room s.hotels hid rid).2,
                  reservations := Store.setS s.reservations rid
                    { reservation_id := rid, customer_id := cid,
                      hotel_id := hid, check_in := ci, check_out := co } })
      else (none, { s with hotels := (Hotel.reserve_room s.hotels hid rid).2 }) := by
  unfold Reservation.create_reservation
  rw [if_neg (by simp [h1]), if_neg (by simp [h2])]

/-! ## The cross-store consistency invariant (spec section 4.3 / claim C5) -/

/-- The hotel inventory decrement for reservation id `rid` of record `r` has
been committed: `rid` sits in its hotel's occupant list and that hotel's
availability bookkeeping matches the list. -/
def committedDecrement (s : SysState) (rid : String) (r : Reservation) : Prop :=
  rid ∈ ((Store.getS s.hotels r.hotel_id).map Hotel.reservations).getD [] ∧
  (Store.getS s.hotels r.hotel_id).map
      (fun h => h.available_rooms + (h.reservations.length : Int)) =
    (Store.getS s.hotels r.hotel_id).map Hotel.total_rooms

instance (s : SysState) (rid : String) (r : Reservation) :
    Decidable (committedDecrement s rid r) := by
  unfold committedDecrement; infer_instance

/-- Per-hotel part of the invariant: exact availability bookkeeping, no
duplicate occupants, and every occupant id backed by a reservation record
pointing at this hotel. -/
def hotelOk (rs : Store Reservation) (p : String × Hotel) : Prop :=
  p.2.available_rooms = p.2.total_rooms - (p.2.reservations.length : Int) ∧
  p.2.reservations.Nodup ∧
  ∀ rid ∈ p.2.reservations,
    (Store.getS rs rid).map Reservation.hotel_id = some p.1

instance (rs : Store Reservation) (p : String × Hotel) :
    Decidable (hotelOk rs p) := by
  unfold hotelOk; infer_instance

/-- Per-reservation part: the record is stored under its own id and occupies
a room at its recorded hotel. -/
def resOk (hotels : Store Hotel) (q : String × Reservation) : Prop :=
  q.2.reservation_id = q.1 ∧
  q.1 ∈ ((Store.getS hotels q.2.hotel_id).map Hotel.reservations).getD []

instance (hotels : Store Hotel) (q : String × Reservation) :
    Decidable (resOk hotels q) := by
  unfold resOk; infer_instance

/-- The full consistency invariant across the Hotel and Reservation stores. -/
def SysInv (s : SysState) : Prop :=
  Store.keysNodup s.hotels ∧ Store.keysNodup s.reservations ∧
  (∀ p ∈ s.hotels, hotelOk s.reservations p) ∧
  (∀ q ∈ s.reservations, resOk s.hotels q)

instance (s : SysState) : Decidable (SysInv s) := by
  unfold SysInv; infer_instance

/-- One Coordinator operation (`create_reservation` or `cancel_reservation`),
run to completion (no crash). -/
inductive Step : SysState → SysState → Prop where
  | createRes (s : SysState) (rid cid hid ci co : String) :
      Step s (Reservation.create_reservation rid cid hid ci co s).2
  | cancelRes (s : SysState) (rid : String) :
      Step s (Reservation.cancel_reservation rid s).2

/-- States reachable by a sequence of completed Coordinator operations. -/
inductive Reachable : SysState → SysState → Prop where
  | refl (s : SysState) : Reachable s s
  | tail {s t u : SysState} : Reachable s t → Step t u → Reachable s u

/-- Operation `create_reservation` preserves the cross-store invariant. -/
theorem SysInv_create (s : SysState) (rid cid hid ci co : String)
    (hs : SysInv s) :
    SysInv (Reservation.create_reservation rid cid hid ci co s).2 := by
  obtain ⟨hnH, hnR, hH, hRv⟩ := hs
  cases h1 : Store.getS s.reservations rid with
  | some r0 =>
      rw [Reservation.create_reservation_eq_dup s rid cid hid ci co (by simp [h1])]
      exact ⟨hnH, hnR, hH, hRv⟩
  | none =>
  cases h2 : Store.getS s.customers cid with
  | none =>
      rw [Reservation.create_reservation_eq_nocust s rid cid hid ci co h1 h2]
      exact ⟨hnH, hnR, hH, hRv⟩
  | some c =>
  rw [Reservation.create_reservation_eq_go s rid cid hid ci co c h1 h2]
  cases hg : Store.getS s.hotels hid with
  | none =>
      rw [Hotel.reserve_room_eq_none s.hotels hid rid hg]
      rw [if_neg (by simp)]
      exact ⟨hnH, hnR, hH, hRv⟩
  | some h =>
  rw [Hotel.reserve_room_eq_some s.hotels hid rid h hg]
  by_cases hav : h.available_rooms ≤ 0
  · rw [if_pos hav, if_neg (by simp)]
    exact ⟨hnH, hnR, hH, hRv⟩
  · rw [if_neg hav, if_pos (by simp)]
    obtain ⟨hq, hnd, hbr⟩ := hH (hid, h) (Store.mem_of_getS_eq_some s.hotels hid h hg)
    have hridnot : rid ∉ h.reservations := by
      intro hmem
      have hx := hbr rid hmem
      rw [h1] at hx
      simp at hx
    refine ⟨Store.keysNodup_setS _ _ _ hnH, Store.keysNodup_setS _ _ _ hnR, ?_, ?_⟩
    · intro p hp
      rcases Store.mem_setS_keysNodup s.hotels hid _ p hnH hp with hpe | ⟨hpold, hpne⟩
      · subst hpe
        refine ⟨?_, ?_, ?_⟩
        · have hq2 : h.available_rooms =
              h.total_rooms - (h.reservations.length : Int) := hq
          show h.available_rooms - 1 =
              h.total_rooms - ((h.reservations ++ [rid]).length : Int)
          rw [List.length_append, List.length_singleton]
          push_cast
          omega
        · show (h.reservations ++ [rid]).Nodup
          simp [List.nodup_append, hnd, hridnot]
        · intro rid' hmem
          rcases List.mem_append.mp hmem with hold | hnew
          · have hne : rid' ≠ rid := fun he => hridnot (he ▸ hold)
            rw [Store.getS_setS s.reservations rid rid' _,
                if_neg (fun he => hne he.symm)]
            exact hbr rid' hold
          · obtain rfl := List.mem_singleton.mp hnew
            rw [Store.getS_setS s.reservations rid' rid' _, if_pos rfl]
            rfl
      · obtain ⟨hq', hnd', hbr'⟩ := hH p hpold
        refine ⟨hq', hnd', ?_⟩
        intro rid' hmem
        have hne : rid' ≠ rid := by
          intro he
          subst he
          have hx := hbr' rid' hmem
          rw [h1] at hx
          simp at hx
        rw [Store.getS_setS s.reservations rid rid' _,
            if_neg (fun he => hne he.symm)]
        exact hbr' rid' hmem
    · intro q hq'
      rcases Store.mem_setS_keysNodup s.reservations rid _ q hnR hq' with hqe | ⟨hqold, hqne⟩
      · subst hqe
        refine ⟨rfl, ?_⟩
        show rid ∈ ((Store.getS (Store.setS s.hotels hid _) hid).map
            Hotel.reservations).getD []
        rw [Store.getS_setS s.hotels hid hid _, if_pos rfl]
        simp only [Option.map_some', Option.getD_some]
        exact List.mem_append_right _ (List.mem_singleton.mpr rfl)
      · obtain ⟨hide, hm⟩ := hRv q hqold
        refine ⟨hide, ?_⟩
        by_cases hqh : q.2.hotel_id = hid
        · rw [hqh] at hm ⊢
          rw [hg] at hm
          simp only [Option.map_some', Option.getD_some] at hm
          rw [Store.getS_setS s.hotels hid hid _, if_pos rfl]
          simp only [Option.map_some', Option.getD_some]
          exact List.mem_append_left _ hm
        · rw [Store.getS_setS s.hotels hid q.2.hotel_id _,
              if_neg (fun he => hqh he.symm)]
          exact hm

/-- Operation `cancel_reservation` preserves the cross-store invariant. -/
theorem SysInv_cancel (s : SysState) (rid : String) (hs : SysInv s) :
    SysInv (Reservation.cancel_reservation rid s).2 := by
  obtain ⟨hnH, hnR, hH, hRv⟩ := hs
  cases h1 : Store.getS s.reservations rid with
  | none =>
      rw [Reservation.cancel_reservation_eq_none s rid h1]
      exact ⟨hnH, hnR, hH, hRv⟩
  | some r =>
  rw [Reservation.cancel_reservation_eq_some s rid r h1]
  obtain ⟨hide, hmem0⟩ := hRv (rid, r) (Store.mem_of_getS_eq_some _ _ _ h1)
  cases hg : Store.getS s.hotels r.hotel_id with
  | none =>
      rw [hg] at hmem0
      simp at hmem0
  | some h =>
  rw [hg] at hmem0
  simp only [Option.map_some', Option.getD_some] at hmem0
  rw [Hotel.cancel_room_eq_some s.hotels r.hotel_id rid h hg, if_pos hmem0]
  obtain ⟨hq, hnd, hbr⟩ := hH (r.hotel_id, h) (Store.mem_of_getS_eq_some _ _ _ hg)
  refine ⟨Store.keysNodup_setS _ _ _ hnH, Store.keysNodup_delS _ _ hnR, ?_, ?_⟩
  · intro p hp
    rcases Store.mem_setS_keysNodup s.hotels r.hotel_id _ p hnH hp with hpe | ⟨hpold, hpne⟩
    · subst hpe
      refine ⟨?_, hnd.erase rid, ?_⟩
      · have hq2 : h.available_rooms =
            h.total_rooms - (h.reservations.length : Int) := hq
        show min h.total_rooms (h.available_rooms + 1) =
            h.total_rooms - (((h.reservations.erase rid).length : Int))
        rw [List.length_erase_of_mem hmem0]
        have hlen := List.length_pos_of_mem hmem0
        omega
      · intro rid' hmem'
        have h2 := (List.Nodup.mem_erase_iff hnd).mp hmem'
        rw [Store.getS_delS_ne s.reservations rid rid' (fun he => h2.1 he.symm)]
        exact hbr rid' h2.2
    · obtain ⟨hq', hnd', hbr'⟩ := hH p hpold
      refine ⟨hq', hnd', ?_⟩
      intro rid' hmem'
      have hne : rid' ≠ rid := by
        intro he
        subst he
        have hx := hbr' rid' hmem'
        rw [h1] at hx
        simp only [Option.map_some'] at hx
        exact hpne (Option.some.inj hx).symm
      rw [Store.getS_delS_ne s.reservations rid rid' (fun he => hne he.symm)]
      exact hbr' rid' hmem'
  · intro q hq'
    obtain ⟨hqold, hqne⟩ := Store.mem_delS_keysNodup s.reservations rid q hnR hq'
    obtain ⟨hide', hm⟩ := hRv q hqold
    refine ⟨hide', ?_⟩
    by_cases hqh : q.2.hotel_id = r.hotel_id
    · rw [hqh] at hm ⊢
      rw [hg] at hm
      simp only [Option.map_some', Option.getD_some] at hm
      rw [Store.getS_setS s.hotels r.hotel_id r.hotel_id _, if_pos rfl]
      simp only [Option.map_some', Option.getD_some]
      exact (List.mem_erase_of_ne hqne).mpr hm
    · rw [Store.getS_setS s.hotels r.hotel_id q.2.hotel_id _,
          if_neg (fun he => hqh he.symm)]
      exact hm

/-- Every completed Coordinator step preserves the invariant. -/
theorem SysInv_step {s t : SysState} (hst : Step s t) (hs : SysInv s) :
    SysInv t := by
  cases hst with
  | createRes rid cid hid ci co => exact SysInv_create s rid cid hid ci co hs
  | cancelRes rid => exact SysInv_cancel s rid hs

/-- The invariant holds in every reachable state. -/
theorem SysInv_reachable {s0 s : SysState} (h0 : SysInv s0)
    (hr : Reachable s0 s) : SysInv s := by
  induction hr with
  | refl => exact h0
  | tail hr hst ih => exact SysInv_step hst ih

/-! ## Claim theorems -/

/-- Claim C7: for every Customer, Hotel and Reservation entity value,
`from_dict (to_dict x) = x` — all fields, including the hotel's
`available_rooms` and `reservations` list, are preserved (the `some` wraps
the absence of a `KeyError`). -/
theorem claim_C7_roundtrip :
    (∀ c : Customer, Customer.from_dict (Customer.to_dict c) = some c) ∧
    (∀ h : Hotel, Hotel.from_dict (Hotel.to_dict h) = some h) ∧
    (∀ r : Reservation, Reservation.from_dict (Reservation.to_dict r) = some r) :=
  ⟨fun _ => rfl, fun _ => rfl, fun _ => rfl⟩

/-- Claim C4: `reserve_room` on a hotel whose `available_rooms` is 0 fails
and returns the Hotel store unchanged (no decrement, no append, no save);
on an absent hotel id it likewise fails with the store unchanged. -/
theorem claim_C4_reserve_room_failure
    (hotels : Store Hotel) (hotel_id reservation_id : String) :
    (∀ h : Hotel, Store.getS hotels hotel_id = some h →
        h.available_rooms = 0 →
        Hotel.reserve_room hotels hotel_id reservation_id = (false, hotels)) ∧
    (Store.getS hotels hotel_id = none →
        Hotel.reserve_room hotels hotel_id reservation_id = (false, hotels)) := by
  constructor
  · intro h hg hav
    rw [Hotel.reserve_room_eq_some hotels hotel_id reservation_id h hg,
        if_pos (by omega)]
  · intro hg
    exact Hotel.reserve_room_eq_none hotels hotel_id reservation_id hg

/-- Witness for C4 on a concrete full hotel and a concrete missing id. -/
theorem claim_C4_witness :
    Hotel.reserve_room [("H1", Hotel.init "H1" "Inn" "Rome" 0)] "H1" "R1" =
      (false, [("H1", Hotel.init "H1" "Inn" "Rome" 0)]) ∧
    Hotel.reserve_room [] "H9" "R1" = (false, []) :=
  ⟨(claim_C4_reserve_room_failure [("H1", Hotel.init "H1" "Inn" "Rome" 0)]
      "H1" "R1").1 (Hotel.init "H1" "Inn" "Rome" 0) (by decide) (by decide),
   (claim_C4_reserve_room_failure [] "H9" "R1").2 (by decide)⟩

/-- Claim C9: `modify_hotel` with a new total sets `total_rooms := newTotal`
and `available_rooms := max 0 (available_rooms + (newTotal - oldTotal))`,
and reports success. -/
theorem claim_C9_modify_total
    (hotels : Store Hotel) (hotel_id : String) (newTotal : Int) (h : Hotel)
    (hg : Store.getS hotels hotel_id = some h) :
    Hotel.modify_hotel hotels hotel_id none none (some newTotal) =
      (true, Store.setS hotels hotel_id
        { h with total_rooms := newTotal,
                 available_rooms :=
                   max 0 (h.available_rooms + (newTotal - h.total_rooms)) }) ∧
    Store.getS (Hotel.modify_hotel hotels hotel_id none none (some newTotal)).2
        hotel_id =
      some { h with total_rooms := newTotal,
                    available_rooms :=
                      max 0 (h.available_rooms + (newTotal - h.total_rooms)) } := by
  have he := Hotel.modify_hotel_eq_total hotels hotel_id newTotal h hg
  refine ⟨he, ?_⟩
  rw [he]
  simp [Store.getS_setS]

/-- Witness for C9: shrinking a fresh 10-room hotel to 4 leaves 4 free. -/
theorem claim_C9_witness :
    Hotel.modify_hotel [("H1", Hotel.init "H1" "Inn" "Rome" 10)] "H1"
        none none (some 4) =
      (true, [("H1", { hotel_id := "H1", name := "Inn", location := "Rome",
                       total_rooms := 4, available_rooms := 4,
                       reservations := [] })]) := by
  have h := (claim_C9_modify_total [("H1", Hotel.init "H1" "Inn" "Rome" 10)]
      "H1" 4 (Hotel.init "H1" "Inn" "Rome" 10) (by decide)).1
  rw [h]
  decide

/-- Claim C3: when the reservation id is present, `cancel_reservation`
removes the record and reports success no matter what `cancel_room` did;
when it is absent, it fails and changes nothing. -/
theorem claim_C3_cancel_reservation (s : SysState) (rid : String) :
    (∀ r : Reservation, Store.getS s.reservations rid = some r →
        (Reservation.cancel_reservation rid s).1 = true ∧
        (Reservation.cancel_reservation rid s).2.reservations =
          Store.delS s.reservations rid ∧
        (Store.keysNodup s.reservations →
          Store.getS (Reservation.cancel_reservation rid s).2.reservations
            rid = none)) ∧
    (Store.getS s.reservations rid = none →
        Reservation.cancel_reservation rid s = (false, s)) := by
  constructor
  · intro r hg
    rw [Reservation.cancel_reservation_eq_some s rid r hg]
    exact ⟨rfl, rfl, fun hn => Store.getS_delS_self s.reservations rid hn⟩
  · intro hg
    exact Reservation.cancel_reservation_eq_none s rid hg

/-- Witness for C3: cancelling an existing record succeeds even though its
hotel id is absent from the Hotel store (so `cancel_room` failed). -/
theorem claim_C3_witness :
    (Reservation.cancel_reservation "R1"
        ⟨[], [], [("R1", ⟨"R1", "C1", "HGONE", "a", "b"⟩)]⟩).1 = true ∧
    Store.getS (Reservation.cancel_reservation "R1"
        ⟨[], [], [("R1", ⟨"R1", "C1", "HGONE", "a", "b"⟩)]⟩).2.reservations
      "R1" = none := by
  have h := (claim_C3_cancel_reservation
      ⟨[], [], [("R1", ⟨"R1", "C1", "HGONE", "a", "b"⟩)]⟩ "R1").1
      ⟨"R1", "C1", "HGONE", "a", "b"⟩ (by decide)
  exact ⟨h.1, h.2.2 (by decide)⟩

/-- Claim C2: `create_reservation` persists a record only if its
`reserve_room` call succeeded; a duplicate reservation id or a missing
customer makes it fail with the whole state unchanged. -/
theorem claim_C2_create_reservation
    (s : SysState) (rid cid hid ci co : String) :
    ((Reservation.create_reservation rid cid hid ci co s).2.reservations ≠
        s.reservations →
      (Hotel.reserve_room s.hotels hid rid).1 = true) ∧
    ((Store.getS s.reservations rid).isSome = true →
      Reservation.create_reservation rid cid hid ci co s = (none, s)) ∧
    (Store.getS s.customers cid = none →
      Reservation.create_reservation rid cid hid ci co s = (none, s)) := by
  refine ⟨?_, ?_, ?_⟩
  · intro hch
    by_contra hfalse
    apply hch
    cases h1 : Store.getS s.reservations rid with
    | some r0 =>
        rw [Reservation.create_reservation_eq_dup s rid cid hid ci co
          (by simp [h1])]
    | none =>
        cases h2 : Store.getS s.customers cid with
        | none =>
            rw [Reservation.create_reservation_eq_nocust s rid cid hid ci co
              h1 h2]
        | some c =>
            rw [Reservation.create_reservation_eq_go s rid cid hid ci co c
              h1 h2, if_neg hfalse]
  · intro h
    exact Reservation.create_reservation_eq_dup s rid cid hid ci co h
  · intro h2c
    cases h1 : Store.getS s.reservations rid with
    | some r0 =>
        exact Reservation.create_reservation_eq_dup s rid cid hid ci co
          (by simp [h1])
    | none =>
        exact Reservation.create_reservation_eq_nocust s rid cid hid ci co
          h1 h2c

/-- Witness for C2: a ghost customer makes `create_reservation` fail with
no change to any store, even though the hotel has availability. -/
theorem claim_C2_witness :
    Reservation.create_reservation "R1" "GHOST" "H1" "a" "b"
        ⟨[], [("H1", Hotel.init "H1" "Inn" "Rome" 3)], []⟩ =
      (none, ⟨[], [("H1", Hotel.init "H1" "Inn" "Rome" 3)], []⟩) :=
  (claim_C2_create_reservation
      ⟨[], [("H1", Hotel.init "H1" "Inn" "Rome" 3)], []⟩
      "R1" "GHOST" "H1" "a" "b").2.2 (by decide)

/-- Unfolding a successful `reserve_room`. -/
theorem Hotel.reserve_room_eq_some_true (hotels : Store Hotel)
    (hotel_id reservation_id : String) (hotel : Hotel)
    (hg : Store.getS hotels hotel_id = some hotel)
    (hav : 0 < hotel.available_rooms) :
    Hotel.reserve_room hotels hotel_id reservation_id =
      (true, Store.setS hotels hotel_id
        { hotel with available_rooms := hotel.available_rooms - 1,
                     reservations := hotel.reservations ++ [reservation_id] }) := by
  rw [Hotel.reserve_room_eq_some hotels hotel_id reservation_id hotel hg,
      if_neg (by omega)]

/-- Unfolding a successful `cancel_room`. -/
theorem Hotel.cancel_room_eq_some_true (hotels : Store Hotel)
    (hotel_id reservation_id : String) (hotel : Hotel)
    (hg : Store.getS hotels hotel_id = some hotel)
    (hm : reservation_id ∈ hotel.reservations) :
    Hotel.cancel_room hotels hotel_id reservation_id =
      (true, Store.setS hotels hotel_id
        { hotel with
            reservations := hotel.reservations.erase reservation_id,
            available_rooms :=
              min hotel.total_rooms (hotel.available_rooms + 1) }) := by
  rw [Hotel.cancel_room_eq_some hotels hotel_id reservation_id hotel hg,
      if_pos hm]

/-- Claim C10: `reserve_room` never checks whether the reservation id is
already an occupant: with at least two rooms free, reserving the same id
twice succeeds twice and the occupant list then holds the id twice; a
subsequent `cancel_room` succeeds but removes only the first occurrence. -/
theorem claim_C10_duplicate_reserve
    (hotels : Store Hotel) (hid rid : String) (h : Hotel)
    (hg : Store.getS hotels hid = some h) (hav : 2 ≤ h.available_rooms) :
    (Hotel.reserve_room hotels hid rid).1 = true ∧
    (Hotel.reserve_room (Hotel.reserve_room hotels hid rid).2 hid rid).1 =
      true ∧
    (Store.getS (Hotel.reserve_room (Hotel.reserve_room hotels hid rid).2
        hid rid).2 hid).map (fun hh => hh.reservations.count rid) =
      some (h.reservations.count rid + 2) ∧
    (Hotel.cancel_room (Hotel.reserve_room (Hotel.reserve_room hotels hid
        rid).2 hid rid).2 hid rid).1 = true ∧
    (Store.getS (Hotel.cancel_room (Hotel.reserve_room (Hotel.reserve_room
        hotels hid rid).2 hid rid).2 hid rid).2 hid).map
        (fun hh => hh.reservations.count rid) =
      some (h.reservations.count rid + 1) := by
  have e1 := Hotel.reserve_room_eq_some_true hotels hid rid h hg (by omega)
  have g1 : Store.getS (Hotel.reserve_room hotels hid rid).2 hid =
      some { h with available_rooms := h.available_rooms - 1,
                    reservations := h.reservations ++ [rid] } := by
    rw [e1]
    simp [Store.getS_setS]
  have e2 := Hotel.reserve_room_eq_some_true _ hid rid _ g1
    (by show (0:Int) < h.available_rooms - 1; omega)
  have g2 : Store.getS (Hotel.reserve_room (Hotel.reserve_room hotels hid
      rid).2 hid rid).2 hid =
      some { h with available_rooms := h.available_rooms - 1 - 1,
                    reservations := (h.reservations ++ [rid]) ++ [rid] } := by
    rw [e2]
    simp [Store.getS_setS]
  have e3 := Hotel.cancel_room_eq_some_true _ hid rid _ g2
    (by show rid ∈ (h.reservations ++ [rid]) ++ [rid]; simp)
  have g3 : Store.getS (Hotel.cancel_room (Hotel.reserve_room
      (Hotel.reserve_room hotels hid rid).2 hid rid).2 hid rid).2 hid =
      some { h with
               available_rooms :=
                 min h.total_rooms (h.available_rooms - 1 - 1 + 1),
               reservations :=
                 ((h.reservations ++ [rid]) ++ [rid]).erase rid } := by
    rw [e3]
    simp [Store.getS_setS]
  refine ⟨by rw [e1], by rw [e2], ?_, by rw [e3], ?_⟩
  · rw [g2]
    simp [List.count_append]
  · rw [g3]
    simp only [Option.map_some', Option.some.injEq]
    show (((h.reservations ++ [rid]) ++ [rid]).erase rid).count rid =
      h.reservations.count rid + 1
    rw [List.count_erase_self]
    simp [List.count_append]

/-- Witness for C10 on a concrete two-room hotel. -/
theorem claim_C10_witness :
    (Store.getS (Hotel.cancel_room (Hotel.reserve_room (Hotel.reserve_room
        [("H1", Hotel.init "H1" "Inn" "Rome" 2)] "H1" "R1").2 "H1" "R1").2
        "H1" "R1").2 "H1").map (fun hh => hh.reservations.count "R1") =
      some ((Hotel.init "H1" "Inn" "Rome" 2).reservations.count "R1" + 1) :=
  (claim_C10_duplicate_reserve [("H1", Hotel.init "H1" "Inn" "Rome" 2)]
      "H1" "R1" (Hotel.init "H1" "Inn" "Rome" 2) (by decide)
      (by decide)).2.2.2.2

/-- The name update never touches the room counters. -/
theorem Hotel.apply_name_available_rooms (hotel : Hotel)
    (name : Option String) :
    (Hotel.apply_name hotel name).available_rooms = hotel.available_rooms := by
  rcases name with _ | n
  · rfl
  · by_cases h : n = "" <;> simp [Hotel.apply_name, h]

/-- The name update never touches the room counters. -/
theorem Hotel.apply_name_total_rooms (hotel : Hotel) (name : Option String) :
    (Hotel.apply_name hotel name).total_rooms = hotel.total_rooms := by
  rcases name with _ | n
  · rfl
  · by_cases h : n = "" <;> simp [Hotel.apply_name, h]

/-- The location update never touches the room counters. -/
theorem Hotel.apply_location_available_rooms (hotel : Hotel)
    (location : Option String) :
    (Hotel.apply_location hotel location).available_rooms =
      hotel.available_rooms := by
  rcases location with _ | l
  · rfl
  · by_cases h : l = "" <;> simp [Hotel.apply_location, h]

/-- The location update never touches the room counters. -/
theorem Hotel.apply_location_total_rooms (hotel : Hotel)
    (location : Option String) :
    (Hotel.apply_location hotel location).total_rooms = hotel.total_rooms := by
  rcases location with _ | l
  · rfl
  · by_cases h : l = "" <;> simp [Hotel.apply_location, h]

/-- Unfolding `modify_hotel` on a present hotel with any name/location
arguments and a new total. -/
theorem Hotel.modify_hotel_eq_some_total (hotels : Store Hotel)
    (hotel_id : String) (name location : Option String) (t : Int)
    (hotel : Hotel) (hg : Store.getS hotels hotel_id = some hotel) :
    Hotel.modify_hotel hotels hotel_id name location (some t) =
      (true, Store.setS hotels hotel_id
        { Hotel.apply_location (Hotel.apply_name hotel name) location with
            total_rooms := t,
            available_rooms :=
              max 0 ((Hotel.apply_location (Hotel.apply_name hotel name)
                  location).available_rooms +
                (t - (Hotel.apply_location (Hotel.apply_name hotel name)
                  location).total_rooms)) }) := by
  unfold Hotel.modify_hotel
  rw [hg]

/-- Claim C1 counterexample: the Hotel store can hold a state where the
equality `available == total - len(reservations)` is broken (total 5,
available 2, one occupant); a successful `cancel_room` from that state
commits available 3 with an empty occupant list, and 3 is not 5 - 0. -/
theorem claim_C1_counterexample :
    (Hotel.cancel_room [("H1", ⟨"H1", "N", "L", 5, 2, ["R1"]⟩)] "H1" "R1").1 =
      true ∧
    (Hotel.cancel_room [("H1", ⟨"H1", "N", "L", 5, 2, ["R1"]⟩)] "H1" "R1").2 =
      [("H1", ⟨"H1", "N", "L", 5, 3, []⟩)] ∧
    ((3 : Int) ≠ 5 - (([] : List String).length : Int)) := by
  decide

/-- Claim C1 (amended): on every hotel that satisfied
`available_rooms == total_rooms - len(reservations)` before the call, any
successful `reserve_room` or `cancel_room` re-establishes the equality for
that hotel (the equality is preserved, not established from arbitrary
states). -/
theorem claim_C1_amended
    (hotels : Store Hotel) (hid rid : String) (h : Hotel)
    (hg : Store.getS hotels hid = some h)
    (hinv : h.available_rooms = h.total_rooms - (h.reservations.length : Int)) :
    (∀ h', Store.getS (Hotel.reserve_room hotels hid rid).2 hid = some h' →
        h'.available_rooms = h'.total_rooms - (h'.reservations.length : Int)) ∧
    (∀ h', Store.getS (Hotel.cancel_room hotels hid rid).2 hid = some h' →
        h'.available_rooms = h'.total_rooms - (h'.reservations.length : Int)) := by
  constructor
  · intro h' hg'
    by_cases hav : h.available_rooms ≤ 0
    · rw [Hotel.reserve_room_eq_some hotels hid rid h hg, if_pos hav] at hg'
      have hg2 : Store.getS hotels hid = some h' := hg'
      rw [hg] at hg2
      obtain rfl := Option.some.inj hg2
      exact hinv
    · rw [Hotel.reserve_room_eq_some_true hotels hid rid h hg (by omega)] at hg'
      have hg2 : Store.getS (Store.setS hotels hid
          { h with available_rooms := h.available_rooms - 1,
                   reservations := h.reservations ++ [rid] }) hid =
          some h' := hg'
      rw [Store.getS_setS, if_pos rfl] at hg2
      obtain rfl := Option.some.inj hg2
      show h.available_rooms - 1 =
        h.total_rooms - (((h.reservations ++ [rid]).length : Nat) : Int)
      rw [List.length_append, List.length_singleton]
      push_cast
      omega
  · intro h' hg'
    by_cases hm : rid ∈ h.reservations
    · rw [Hotel.cancel_room_eq_some_true hotels hid rid h hg hm] at hg'
      have hg2 : Store.getS (Store.setS hotels hid
          { h with reservations := h.reservations.erase rid,
                   available_rooms :=
                     min h.total_rooms (h.available_rooms + 1) }) hid =
          some h' := hg'
      rw [Store.getS_setS, if_pos rfl] at hg2
      obtain rfl := Option.some.inj hg2
      show min h.total_rooms (h.available_rooms + 1) =
        h.total_rooms - (((h.reservations.erase rid).length : Nat) : Int)
      rw [List.length_erase_of_mem hm]
      have hlen := List.length_pos_of_mem hm
      omega
    · rw [Hotel.cancel_room_eq_some hotels hid rid h hg, if_neg hm] at hg'
      have hg2 : Store.getS hotels hid = some h' := hg'
      rw [hg] at hg2
      obtain rfl := Option.some.inj hg2
      exact hinv

/-- Witness for the amended C1: a consistent one-occupant hotel stays
consistent after a successful `reserve_room`. -/
theorem claim_C1_witness :
    (⟨"H1", "N", "L", 5, 3, ["R1", "R2"]⟩ : Hotel).available_rooms =
      (⟨"H1", "N", "L", 5, 3, ["R1", "R2"]⟩ : Hotel).total_rooms -
        (((⟨"H1", "N", "L", 5, 3, ["R1", "R2"]⟩ : Hotel).reservations.length :
          Nat) : Int) :=
  (claim_C1_amended [("H1", ⟨"H1", "N", "L", 5, 4, ["R1"]⟩)] "H1" "R2"
      ⟨"H1", "N", "L", 5, 4, ["R1"]⟩ (by decide) (by decide)).1
    ⟨"H1", "N", "L", 5, 3, ["R1", "R2"]⟩ (by decide)

/-- Claim C6 counterexample: `create_hotel` performs no validation of
`total_rooms`, so creating a hotel with total -1 commits
`available_rooms = -1`, violating `0 <= available_rooms`. -/
theorem claim_C6_counterexample :
    (Store.getS (Hotel.create_hotel [] "H1" "Inn" "Rome" (-1)).2 "H1").map
        Hotel.available_rooms = some (-1) ∧
    ((0 : Int) ≤ -1 → False) := by
  decide

/-- The bound `0 <= available_rooms <= total_rooms` from the spec's data
model. -/
def roomBounds (h : Hotel) : Prop :=
  0 ≤ h.available_rooms ∧ h.available_rooms ≤ h.total_rooms

instance (h : Hotel) : Decidable (roomBounds h) := by
  unfold roomBounds; infer_instance

/-- Claim C6 (amended): a hotel is always created with
`available_rooms = total_rooms`; and provided every supplied room total is
non-negative (as the data model requires), `0 <= available <= total` holds
for every hotel in the store after creation, `reserve_room`, `cancel_room`
and `modify_hotel`. -/
theorem claim_C6_amended
    (hotels : Store Hotel) (hid rid n l : String) (t : Int)
    (name location : Option String)
    (hB : ∀ p ∈ hotels, roomBounds p.2) :
    ((Hotel.create_hotel hotels hid n l t).1.map Hotel.available_rooms =
      (Hotel.create_hotel hotels hid n l t).1.map Hotel.total_rooms) ∧
    (0 ≤ t → ∀ p ∈ (Hotel.create_hotel hotels hid n l t).2, roomBounds p.2) ∧
    (∀ p ∈ (Hotel.reserve_room hotels hid rid).2, roomBounds p.2) ∧
    (∀ p ∈ (Hotel.cancel_room hotels hid rid).2, roomBounds p.2) ∧
    (0 ≤ t → ∀ p ∈ (Hotel.modify_hotel hotels hid name location (some t)).2,
        roomBounds p.2) := by
  refine ⟨?_, ?_, ?_, ?_, ?_⟩
  · by_cases hdup : (Store.getS hotels hid).isSome
    · simp [Hotel.create_hotel, hdup]
    · simp [Hotel.create_hotel, hdup, Hotel.init]
  · intro ht p hp
    by_cases hdup : (Store.getS hotels hid).isSome
    · simp only [Hotel.create_hotel, if_pos hdup] at hp
      exact hB p hp
    · simp only [Hotel.create_hotel, if_neg hdup] at hp
      rcases Store.mem_setS_cases hotels hid _ p hp with h1 | h2
      · rw [h1]
        exact ⟨ht, le_refl t⟩
      · exact hB p h2
  · intro p hp
    cases hg : Store.getS hotels hid with
    | none =>
        rw [Hotel.reserve_room_eq_none hotels hid rid hg] at hp
        exact hB p hp
    | some hotel =>
        by_cases hav : hotel.available_rooms ≤ 0
        · rw [Hotel.reserve_room_eq_some hotels hid rid hotel hg,
              if_pos hav] at hp
          exact hB p hp
        · rw [Hotel.reserve_room_eq_some_true hotels hid rid hotel hg
              (by omega)] at hp
          rcases Store.mem_setS_cases hotels hid _ p hp with h1 | h2
          · rw [h1]
            have hb : roomBounds hotel :=
              hB (hid, hotel) (Store.mem_of_getS_eq_some hotels hid hotel hg)
            obtain ⟨hb1, hb2⟩ := hb
            refine ⟨?_, ?_⟩
            · show 0 ≤ hotel.available_rooms - 1
              omega
            · show hotel.available_rooms - 1 ≤ hotel.total_rooms
              omega
          · exact hB p h2
  · intro p hp
    cases hg : Store.getS hotels hid with
    | none =>
        rw [Hotel.cancel_room_eq_none hotels hid rid hg] at hp
        exact hB p hp
    | some hotel =>
        by_cases hm : rid ∈ hotel.reservations
        · rw [Hotel.cancel_room_eq_some_true hotels hid rid hotel hg hm] at hp
          rcases Store.mem_setS_cases hotels hid _ p hp with h1 | h2
          · rw [h1]
            have hb : roomBounds hotel :=
              hB (hid, hotel) (Store.mem_of_getS_eq_some hotels hid hotel hg)
            obtain ⟨hb1, hb2⟩ := hb
            refine ⟨?_, ?_⟩
            · show 0 ≤ min hotel.total_rooms (hotel.available_rooms + 1)
              omega
            · show min hotel.total_rooms (hotel.available_rooms + 1) ≤
                hotel.total_rooms
              omega
          · exact hB p h2
        · rw [Hotel.cancel_room_eq_some hotels hid rid hotel hg,
              if_neg hm] at hp
          exact hB p hp
  · intro ht p hp
    cases hg : Store.getS hotels hid with
    | none =>
        rw [Hotel.modify_hotel_eq_none hotels hid name location (some t) hg]
          at hp
        exact hB p hp
    | some hotel =>
        rw [Hotel.modify_hotel_eq_some_total hotels hid name location t hotel
            hg] at hp
        rcases Store.mem_setS_cases hotels hid _ p hp with h1 | h2
        · rw [h1]
          have hb : roomBounds hotel :=
            hB (hid, hotel) (Store.mem_of_getS_eq_some hotels hid hotel hg)
          obtain ⟨hb1, hb2⟩ := hb
          refine ⟨le_max_left 0 _, ?_⟩
          show max 0 ((Hotel.apply_location (Hotel.apply_name hotel name)
              location).available_rooms +
            (t - (Hotel.apply_location (Hotel.apply_name hotel name)
              location).total_rooms)) ≤ t
          rw [Hotel.apply_location_available_rooms,
              Hotel.apply_name_available_rooms,
              Hotel.apply_location_total_rooms, Hotel.apply_name_total_rooms]
          omega
        · exact hB p h2

/-- Witness for the amended C6: after reserving in a fresh 2-room hotel the
committed record still satisfies the bounds. -/
theorem claim_C6_witness :
    roomBounds (⟨"H1", "Inn", "Rome", 2, 1, ["R1"]⟩ : Hotel) :=
  (claim_C6_amended [("H1", Hotel.init "H1" "Inn" "Rome" 2)] "H1" "R1"
      "x" "y" 5 none none (by decide)).2.2.1
    ("H1", ⟨"H1", "Inn", "Rome", 2, 1, ["R1"]⟩) (by decide)

/-- A `filterMap` whose function succeeds on every element keeps the
length. -/
theorem length_filterMap_of_isSome {α β : Type} (f : α → Option β)
    (l : List α) (h : ∀ a ∈ l, (f a).isSome = true) :
    (l.filterMap f).length = l.length := by
  induction l with
  | nil => rfl
  | cons a rest ih =>
      have ha := h a (List.mem_cons_self a rest)
      cases hf : f a with
      | none => rw [hf] at ha; simp at ha
      | some b =>
          rw [List.filterMap_cons, hf]
          simp only [List.length_cons]
          rw [ih (fun x hx => h x (List.mem_cons_of_mem a hx))]

/-- Claim C8: loading a parsed mapping that holds one record failing
required-field validation among N valid ones yields exactly the N valid
records (shown for the Customer and the Hotel store loaders). -/
theorem claim_C8_load_skips_malformed
    (xs ys : Store CustomerDict) (k : String) (bad : CustomerDict)
    (xs2 ys2 : Store HotelDict) (k2 : String) (bad2 : HotelDict)
    (hbad : Customer.from_dict bad = none)
    (hxs : ∀ kv ∈ xs, (Customer.from_dict kv.2).isSome = true)
    (hys : ∀ kv ∈ ys, (Customer.from_dict kv.2).isSome = true)
    (hbad2 : Hotel.from_dict bad2 = none)
    (hxs2 : ∀ kv ∈ xs2, (Hotel.from_dict kv.2).isSome = true)
    (hys2 : ∀ kv ∈ ys2, (Hotel.from_dict kv.2).isSome = true) :
    (Customer._load_customers (xs ++ [(k, bad)] ++ ys) =
        Customer._load_customers xs ++ Customer._load_customers ys ∧
      (Customer._load_customers (xs ++ [(k, bad)] ++ ys)).length =
        xs.length + ys.length) ∧
    (Hotel._load_hotels (xs2 ++ [(k2, bad2)] ++ ys2) =
        Hotel._load_hotels xs2 ++ Hotel._load_hotels ys2 ∧
      (Hotel._load_hotels (xs2 ++ [(k2, bad2)] ++ ys2)).length =
        xs2.length + ys2.length) := by
  have hvx : ∀ kv ∈ xs,
      ((fun kv => (Customer.from_dict kv.2).map fun c => (kv.1, c))
        kv).isSome = true := by
    intro kv hkv
    have hv := hxs kv hkv
    cases hc : Customer.from_dict kv.2
    · rw [hc] at hv; simp at hv
    · simp [hc]
  have hvy : ∀ kv ∈ ys,
      ((fun kv => (Customer.from_dict kv.2).map fun c => (kv.1, c))
        kv).isSome = true := by
    intro kv hkv
    have hv := hys kv hkv
    cases hc : Customer.from_dict kv.2
    · rw [hc] at hv; simp at hv
    · simp [hc]
  have hvx2 : ∀ kv ∈ xs2,
      ((fun kv => (Hotel.from_dict kv.2).map fun h => (kv.1, h))
        kv).isSome = true := by
    intro kv hkv
    have hv := hxs2 kv hkv
    cases hc : Hotel.from_dict kv.2
    · rw [hc] at hv; simp at hv
    · simp [hc]
  have hvy2 : ∀ kv ∈ ys2,
      ((fun kv => (Hotel.from_dict kv.2).map fun h => (kv.1, h))
        kv).isSome = true := by
    intro kv hkv
    have hv := hys2 kv hkv
    cases hc : Hotel.from_dict kv.2
    · rw [hc] at hv; simp at hv
    · simp [hc]
  have ec : Customer._load_customers (xs ++ [(k, bad)] ++ ys) =
      Customer._load_customers xs ++ Customer._load_customers ys := by
    unfold Customer._load_customers
    rw [List.filterMap_append, List.filterMap_append]
    simp [hbad]
  have eh : Hotel._load_hotels (xs2 ++ [(k2, bad2)] ++ ys2) =
      Hotel._load_hotels xs2 ++ Hotel._load_hotels ys2 := by
    unfold Hotel._load_hotels
    rw [List.filterMap_append, List.filterMap_append]
    simp [hbad2]
  refine ⟨⟨ec, ?_⟩, ⟨eh, ?_⟩⟩
  · rw [ec, List.length_append]
    unfold Customer._load_customers
    rw [length_filterMap_of_isSome _ xs hvx, length_filterMap_of_isSome _ ys hvy]
  · rw [eh, List.length_append]
    unfold Hotel._load_hotels
    rw [length_filterMap_of_isSome _ xs2 hvx2,
        length_filterMap_of_isSome _ ys2 hvy2]

/-- Witness for C8: one customer record missing its phone among two valid
ones loads exactly the two valid records. -/
theorem claim_C8_witness :
    (Customer._load_customers
        [("C1", ⟨some "C1", some "A", some "a@x", some "1"⟩),
         ("C2", ⟨some "C2", some "B", some "b@x", none⟩),
         ("C3", ⟨some "C3", some "C", some "c@x", some "3"⟩)]).length = 2 :=
  (claim_C8_load_skips_malformed
      [("C1", ⟨some "C1", some "A", some "a@x", some "1"⟩)]
      [("C3", ⟨some "C3", some "C", some "c@x", some "3"⟩)]
      "C2" ⟨some "C2", some "B", some "b@x", none⟩
      [] [] "H" ⟨none, none, none, none, none, none⟩
      (by decide) (by decide) (by decide) (by decide) (by decide)
      (by decide)).1.2

/-- Claim C5: in every state reachable from a consistent state by completed
`create_reservation` / `cancel_reservation` operations, a Reservation
record exists if and only if the matching hotel inventory decrement is
committed: its id is in its hotel's occupant list with the availability
bookkeeping matching, and conversely every occupant id is backed by a
stored Reservation record for that hotel. -/
theorem claim_C5_reservation_iff_decrement (s0 s : SysState)
    (h0 : SysInv s0) (hr : Reachable s0 s) :
    (∀ rid r, Store.getS s.reservations rid = some r →
        committedDecrement s rid r) ∧
    (∀ hid h, Store.getS s.hotels hid = some h →
        ∀ rid ∈ h.reservations,
          (Store.getS s.reservations rid).map Reservation.hotel_id =
            some hid) := by
  obtain ⟨hnH, hnR, hH, hRv⟩ := SysInv_reachable h0 hr
  constructor
  · intro rid r hg
    obtain ⟨hide, hm⟩ := hRv (rid, r) (Store.mem_of_getS_eq_some _ _ _ hg)
    unfold committedDecrement
    cases hh : Store.getS s.hotels r.hotel_id with
    | none => rw [hh] at hm; simp at hm
    | some h =>
        rw [hh] at hm
        simp only [Option.map_some', Option.getD_some] at hm
        refine ⟨by simpa using hm, ?_⟩
        obtain ⟨hq, _, _⟩ :=
          hH (r.hotel_id, h) (Store.mem_of_getS_eq_some _ _ _ hh)
        have hq2 : h.available_rooms =
            h.total_rooms - (h.reservations.length : Int) := hq
        simp only [Option.map_some', Option.some.injEq]
        omega
  · intro hid h hg rid hmem
    obtain ⟨_, _, hbr⟩ := hH (hid, h) (Store.mem_of_getS_eq_some _ _ _ hg)
    exact hbr rid hmem

/-- Witness for C5: one completed `create_reservation` from a consistent
one-hotel one-customer state leaves "R1" committed at its hotel. -/
theorem claim_C5_witness :
    committedDecrement
      (Reservation.create_reservation "R1" "C1" "H1" "d1" "d2"
          ⟨[("C1", ⟨"C1", "Ann", "a@x", "1"⟩)],
           [("H1", Hotel.init "H1" "Inn" "Rome" 1)], []⟩).2
      "R1" ⟨"R1", "C1", "H1", "d1", "d2"⟩ :=
  (claim_C5_reservation_iff_decrement
      ⟨[("C1", ⟨"C1", "Ann", "a@x", "1"⟩)],
       [("H1", Hotel.init "H1" "Inn" "Rome" 1)], []⟩
      (Reservation.create_reservation "R1" "C1" "H1" "d1" "d2"
          ⟨[("C1", ⟨"C1", "Ann", "a@x", "1"⟩)],
           [("H1", Hotel.init "H1" "Inn" "Rome" 1)], []⟩).2
      (by decide)
      (Reachable.tail (Reachable.refl _)
        (Step.createRes _ "R1" "C1" "H1" "d1" "d2"))).1
    "R1" ⟨"R1", "C1", "H1", "d1", "d2"⟩ (by decide)
